import Mathlib

/-!
Verification of the BadgerDB buffer pool manager (`src/buffer.cpp`, namespace
`badgerdb`) against its natural-language specification.

The embedding models the complete state of one `BufMgr` instance:

* `BufDesc` mirrors the per-frame descriptor of `buffer.h` (fields `file`,
  `pageNo`, `valid`, `pinCnt`, `refbit`, `dirty`).  The redundant `frameNo`
  field (always equal to the frame's index, used only in exception payloads)
  is not carried.
* File identities and page numbers are `Nat`.  The identity `0` models the
  default-constructed `File()` that a cleared descriptor holds; a real open
  file never compares equal to it.
* A `Page` object carries its own page number, as in BadgerDB, so it is
  modelled as a pair `(page_number, data)`.
* Calls to the external file collaborator are modelled by logs:
  `writeLog` records each `file.writePage(page)` call as `(file, page)`, and
  `deleteLog` records each `file.deletePage(pageNo)` call as `(file, pageNo)`.
  Data returned by the collaborator (`file.readPage`, `file.allocatePage`)
  is passed in as an argument of the corresponding operation.
-/

namespace BadgerDB

/-- The exceptions thrown by `BufMgr` (from `exceptions/`). -/
inductive BufError where
  | bufferExceeded
  | pageNotPinned
  | pagePinned
  | badBuffer
deriving DecidableEq, Repr

/-- Per-frame descriptor, mirroring `BufDesc` of `buffer.h`. -/
structure BufDesc where
  file : Nat
  pageNo : Nat
  valid : Bool
  pinCnt : Nat
  refbit : Bool
  dirty : Bool
deriving DecidableEq, Repr

/-- Modelled from the spec: `BufDesc::Clear` from the missing `buffer.h` —
"`clear()`: resets all fields to the unoccupied baseline."  The owner fields
are reset to `0`, the identity of the default-constructed `File()` and the
invalid page number. -/
def BufDesc.clearDesc : BufDesc :=
  { file := 0, pageNo := 0, valid := false, pinCnt := 0, refbit := false, dirty := false }

/-- Modelled from the spec: `BufDesc::Set` from the missing `buffer.h` —
"`markOccupied(owner)`: sets `occupied=true`, `owner`, `pinCount=1`,
`referenced=true`, `dirty=false`." -/
def BufDesc.setDesc (file pageNo : Nat) : BufDesc :=
  { file := file, pageNo := pageNo, valid := true, pinCnt := 1, refbit := true, dirty := false }

/-- A page object: BadgerDB pages carry their own page number, so a page is
`(page_number, data)`. -/
abbrev Page := Nat × Nat

/-- Modelled from the spec: the Page Directory (`BufHashTbl` from the missing
`bufHashTbl` files) — "an associative structure mapping a (file identity, page
identifier) key to a frame index"; `lookup` by key. -/
def hashLookup (tbl : List ((Nat × Nat) × Nat)) (file pageNo : Nat) : Option Nat :=
  match tbl.find? (fun e => e.1 == (file, pageNo)) with
  | some e => some e.2
  | none => none

/-- Modelled from the spec: Page Directory `insert(key, frame index)`; keys are
unique, and every call site first establishes absence via `lookup`. -/
def hashInsert (tbl : List ((Nat × Nat) × Nat)) (file pageNo frame : Nat) :
    List ((Nat × Nat) × Nat) :=
  tbl ++ [((file, pageNo), frame)]

/-- Modelled from the spec: Page Directory `remove(key)`. -/
def hashRemove (tbl : List ((Nat × Nat) × Nat)) (file pageNo : Nat) :
    List ((Nat × Nat) × Nat) :=
  tbl.filter (fun e => !(e.1 == (file, pageNo)))

/-- The complete state of one `BufMgr` instance, together with the logs of
calls made to the external file collaborator. -/
structure BufState where
  numBufs : Nat
  clockHand : Nat
  bufDescTable : List BufDesc
  bufPool : List Page
  hashTable : List ((Nat × Nat) × Nat)
  writeLog : List (Nat × Page)
  deleteLog : List (Nat × Nat)
deriving DecidableEq, Repr

/-- Read the descriptor at frame `i` (`bufDescTable[i]`). -/
def BufState.desc (s : BufState) (i : Nat) : BufDesc :=
  s.bufDescTable.getD i BufDesc.clearDesc

/-- Read the pool slot at frame `i` (`bufPool[i]`). -/
def BufState.poolGet (s : BufState) (i : Nat) : Page :=
  s.bufPool.getD i (0, 0)

/-- Replace the descriptor at frame `i`. -/
def BufState.setDescAt (s : BufState) (i : Nat) (d : BufDesc) : BufState :=
  { s with bufDescTable := s.bufDescTable.set i d }

/-- `BufMgr::BufMgr(bufs)`: every descriptor starts invalid (the `BufDesc`
default constructor clears it), and `clockHand = bufs - 1`. -/
def mkBufMgr (bufs : Nat) : BufState :=
  { numBufs := bufs
    clockHand := bufs - 1
    bufDescTable := List.replicate bufs BufDesc.clearDesc
    bufPool := List.replicate bufs (0, 0)
    hashTable := []
    writeLog := []
    deleteLog := [] }

/-- `BufMgr::advanceClock`: `clockHand = (clockHand + 1) % numBufs`. -/
def advanceClock (s : BufState) : BufState :=
  { s with clockHand := (s.clockHand + 1) % s.numBufs }

/-- `bufDescTable[clockHand].file.writePage(bufPool[clockHand])`, modelled as
appending the written `(file, page)` pair to the write log. -/
def writeBackFrame (s : BufState) (i : Nat) : BufState :=
  { s with writeLog := s.writeLog ++ [((s.desc i).file, s.poolGet i)] }

/-- `bufDescTable[i].refbit = false`. -/
def clearRefbit (s : BufState) (i : Nat) : BufState :=
  s.setDescAt i { s.desc i with refbit := false }

/-- The body of `BufMgr::allocBuf`'s `for(uint32_t i = 0; i < 2*numBufs; i++)`
loop, with the remaining iteration count as fuel.  Each iteration advances the
clock and inspects `bufDescTable[clockHand]`: an invalid frame is selected; a
referenced frame loses its refbit; an unpinned unreferenced frame is selected
after a write-back if dirty; a pinned frame is skipped.  `none` means the loop
ran out of iterations. -/
def allocBufLoop : Nat → BufState → BufState × Option Nat
  | 0, s => (s, none)
  | fuel + 1, s =>
    let s₁ := advanceClock s
    let d := s₁.desc s₁.clockHand
    if d.valid = false then
      (s₁, some s₁.clockHand)
    else if d.refbit = true then
      allocBufLoop fuel (clearRefbit s₁ s₁.clockHand)
    else if d.pinCnt = 0 then
      (if d.dirty = true then writeBackFrame s₁ s₁.clockHand else s₁, some s₁.clockHand)
    else
      allocBufLoop fuel s₁

/-- `BufMgr::allocBuf`: run the clock sweep for at most `2 * numBufs`
iterations; `BufferExceededException` if no frame was selected. -/
def allocBuf (s : BufState) : BufState × Except BufError Nat :=
  match allocBufLoop (2 * s.numBufs) s with
  | (s', some f) => (s', Except.ok f)
  | (s', none) => (s', Except.error BufError.bufferExceeded)

/-- `BufMgr::readPage(file, pageNo, page)`.  `loaded` is the data of the page
returned by `file.readPage(pageNo)` on the miss path.  Returns the page handed
back through the `page` out-parameter. -/
def readPage (s : BufState) (file pageNo loaded : Nat) :
    BufState × Except BufError Page :=
  match hashLookup s.hashTable file pageNo with
  | some f =>
    let d := s.desc f
    let s₁ := s.setDescAt f { d with refbit := true, pinCnt := d.pinCnt + 1 }
    (s₁, Except.ok (s₁.poolGet f))
  | none =>
    match allocBuf s with
    | (s₁, Except.error e) => (s₁, Except.error e)
    | (s₁, Except.ok f) =>
      let newPage : Page := (pageNo, loaded)
      let s₂ := { s₁ with hashTable := hashInsert s₁.hashTable file pageNo f }
      let s₃ := s₂.setDescAt f (BufDesc.setDesc file pageNo)
      let s₄ := { s₃ with bufPool := s₃.bufPool.set f newPage }
      (s₄, Except.ok newPage)

/-- `BufMgr::unPinPage(file, pageNo, dirty)`. -/
def unPinPage (s : BufState) (file pageNo : Nat) (dirty : Bool) :
    BufState × Except BufError Unit :=
  match hashLookup s.hashTable file pageNo with
  | none => (s, Except.ok ())
  | some f =>
    if (s.desc f).pinCnt = 0 then
      (s, Except.error BufError.pageNotPinned)
    else
      let d := s.desc f
      let d₁ := { d with pinCnt := d.pinCnt - 1 }
      let d₂ := if dirty then { d₁ with dirty := true } else d₁
      (s.setDescAt f d₂, Except.ok ())

/-- `BufMgr::allocPage(file, pageNo, page)`.  `newPageNo` and `newData` are the
number and data of the page returned by `file.allocatePage()`.  Returns the
`(pageNo, page)` out-parameters. -/
def allocPage (s : BufState) (file newPageNo newData : Nat) :
    BufState × Except BufError (Nat × Page) :=
  match allocBuf s with
  | (s₁, Except.error e) => (s₁, Except.error e)
  | (s₁, Except.ok f) =>
    let newPage : Page := (newPageNo, newData)
    let s₂ := { s₁ with hashTable := hashInsert s₁.hashTable file newPageNo f }
    let s₃ := s₂.setDescAt f (BufDesc.setDesc file newPageNo)
    let s₄ := { s₃ with bufPool := s₃.bufPool.set f newPage }
    (s₄, Except.ok (newPageNo, newPage))

/-- The success-path body of `BufMgr::flushFile`'s scan for one matching,
unpinned, valid frame: (a) if dirty, `file.writePage(bufPool[frame])` and clear
the dirty bit; (b) `hashTable.remove(file, bufDescTable[frame].pageNo)`;
(c) `bufDescTable[frame].clear()`. -/
def flushProcessFrame (file i : Nat) (s : BufState) : BufState :=
  let d := s.desc i
  let s₁ := if d.dirty = true then
      (writeBackFrame s i).setDescAt i { d with dirty := false }
    else s
  let s₂ := { s₁ with hashTable := hashRemove s₁.hashTable file (s₁.desc i).pageNo }
  s₂.setDescAt i BufDesc.clearDesc

/-- The body of `BufMgr::flushFile`'s scan, recursing over the list of frame
indices still to visit.  A frame whose descriptor's `file` matches is checked
for pins (`PagePinnedException`, aborting the scan), then validity
(`BadBufferException`), then processed by `flushProcessFrame`. -/
def flushFrames (file : Nat) : List Nat → BufState → BufState × Except BufError Unit
  | [], s => (s, Except.ok ())
  | i :: rest, s =>
    let d := s.desc i
    if d.file = file then
      if 0 < d.pinCnt then
        (s, Except.error BufError.pagePinned)
      else if d.valid = false then
        (s, Except.error BufError.badBuffer)
      else
        flushFrames file rest (flushProcessFrame file i s)
    else
      flushFrames file rest s

/-- `BufMgr::flushFile(file)`: scan frames `0, 1, ..., numBufs - 1`. -/
def flushFile (s : BufState) (file : Nat) : BufState × Except BufError Unit :=
  flushFrames file (List.range s.numBufs) s

/-- `BufMgr::disposePage(file, pageNo)`: on a directory hit, clear the frame
and remove the entry (a miss is swallowed); always call
`file.deletePage(pageNo)`.  The function cannot fail. -/
def disposePage (s : BufState) (file pageNo : Nat) :
    BufState × Except BufError Unit :=
  let s₁ := match hashLookup s.hashTable file pageNo with
    | some f =>
      { s.setDescAt f BufDesc.clearDesc with hashTable := hashRemove s.hashTable file pageNo }
    | none => s
  ({ s₁ with deleteLog := s₁.deleteLog ++ [(file, pageNo)] }, Except.ok ())

/-! ## Basic list-access lemmas -/

theorem getD_set_self {α : Type} : ∀ (l : List α) (i : Nat) (a d : α), i < l.length →
    (l.set i a).getD i d = a
  | [], _, _, _, h => absurd h (by simp)
  | _ :: _, 0, _, _, _ => rfl
  | _ :: xs, i + 1, a, d, h => getD_set_self xs i a d (Nat.lt_of_succ_lt_succ h)

theorem getD_set_ne {α : Type} : ∀ (l : List α) (i j : Nat) (a d : α), j ≠ i →
    (l.set i a).getD j d = l.getD j d
  | [], _, _, _, _, _ => rfl
  | _ :: _, 0, 0, _, _, h => absurd rfl h
  | _ :: _, 0, _ + 1, _, _, _ => rfl
  | _ :: _, _ + 1, 0, _, _, _ => rfl
  | _ :: xs, i + 1, j + 1, a, d, h => getD_set_ne xs i j a d (fun e => h (by rw [e]))

theorem set_of_length_le {α : Type} : ∀ (l : List α) (i : Nat) (a : α),
    l.length ≤ i → l.set i a = l
  | [], _, _, _ => rfl
  | x :: _, 0, _, h => absurd h (by simp)
  | x :: xs, i + 1, a, h => by
    show x :: xs.set i a = x :: xs
    rw [set_of_length_le xs i a (Nat.le_of_succ_le_succ h)]

theorem desc_setDescAt_self (s : BufState) (i : Nat) (d : BufDesc)
    (h : i < s.bufDescTable.length) : (s.setDescAt i d).desc i = d :=
  getD_set_self _ i d _ h

theorem desc_setDescAt_ne (s : BufState) (i j : Nat) (d : BufDesc)
    (h : j ≠ i) : (s.setDescAt i d).desc j = s.desc j :=
  getD_set_ne _ i j d _ h

theorem desc_setDescAt_oob (s : BufState) (i : Nat) (d : BufDesc)
    (h : s.bufDescTable.length ≤ i) : (s.setDescAt i d).desc i = s.desc i := by
  show (s.bufDescTable.set i d).getD i _ = _
  rw [set_of_length_le _ i d h]
  rfl

/-! ## What the clock sweep preserves -/

/-- All descriptor fields except the reference bit agree. -/
def FrameFieldsEq (d d' : BufDesc) : Prop :=
  d'.valid = d.valid ∧ d'.pinCnt = d.pinCnt ∧ d'.dirty = d.dirty ∧
    d'.file = d.file ∧ d'.pageNo = d.pageNo

theorem FrameFieldsEq.refl (d : BufDesc) : FrameFieldsEq d d :=
  ⟨rfl, rfl, rfl, rfl, rfl⟩

theorem FrameFieldsEq.trans {a b c : BufDesc}
    (h₁ : FrameFieldsEq a b) (h₂ : FrameFieldsEq b c) : FrameFieldsEq a c :=
  ⟨h₂.1.trans h₁.1, h₂.2.1.trans h₁.2.1, h₂.2.2.1.trans h₁.2.2.1,
    h₂.2.2.2.1.trans h₁.2.2.2.1, h₂.2.2.2.2.trans h₁.2.2.2.2⟩

theorem clearRefbit_fields (s : BufState) (i j : Nat) :
    FrameFieldsEq (s.desc j) ((clearRefbit s i).desc j) := by
  unfold clearRefbit
  by_cases h : j = i
  · subst h
    by_cases hlt : j < s.bufDescTable.length
    · rw [desc_setDescAt_self _ _ _ hlt]
      exact ⟨rfl, rfl, rfl, rfl, rfl⟩
    · rw [desc_setDescAt_oob _ _ _ (Nat.le_of_not_lt hlt)]
      exact FrameFieldsEq.refl _
  · rw [desc_setDescAt_ne _ _ _ _ h]
    exact FrameFieldsEq.refl _

/-- One-step unfolding of the sweep loop, with the `let`s expanded.  The
inspected descriptor is written through `s` directly, which is definitionally
what `advanceClock` leaves it as. -/
theorem allocBufLoop_succ (fuel : Nat) (s : BufState) :
    allocBufLoop (fuel + 1) s =
      if (s.desc ((advanceClock s).clockHand)).valid = false then
        (advanceClock s, some (advanceClock s).clockHand)
      else if (s.desc ((advanceClock s).clockHand)).refbit = true then
        allocBufLoop fuel (clearRefbit (advanceClock s) (advanceClock s).clockHand)
      else if (s.desc ((advanceClock s).clockHand)).pinCnt = 0 then
        (if (s.desc ((advanceClock s).clockHand)).dirty = true then
           writeBackFrame (advanceClock s) (advanceClock s).clockHand
         else advanceClock s,
         some (advanceClock s).clockHand)
      else
        allocBufLoop fuel (advanceClock s) := rfl

/-- Everything one run of the sweep loop guarantees: it only moves the clock
hand, clears reference bits and possibly appends one write-back for the
selected frame; an occupied selected frame is unpinned, and a dirty occupied
selected frame accounts for exactly the one appended write-back. -/
def SweepSpec (s : BufState) (r : BufState × Option Nat) : Prop :=
  r.1.numBufs = s.numBufs ∧
  r.1.bufPool = s.bufPool ∧
  r.1.hashTable = s.hashTable ∧
  r.1.deleteLog = s.deleteLog ∧
  r.1.bufDescTable.length = s.bufDescTable.length ∧
  (∀ j, FrameFieldsEq (s.desc j) (r.1.desc j)) ∧
  (∀ f, r.2 = some f →
    (0 < s.numBufs → f < s.numBufs) ∧
    ((s.desc f).valid = true → (s.desc f).pinCnt = 0) ∧
    r.1.writeLog =
      (if (s.desc f).valid = true ∧ (s.desc f).dirty = true then
        s.writeLog ++ [((s.desc f).file, s.poolGet f)]
      else s.writeLog)) ∧
  (r.2 = none → r.1.writeLog = s.writeLog)

theorem allocBufLoop_sweepSpec (fuel : Nat) :
    ∀ s : BufState, SweepSpec s (allocBufLoop fuel s) := by
  induction fuel with
  | zero =>
    intro s
    refine ⟨rfl, rfl, rfl, rfl, rfl, fun _ => FrameFieldsEq.refl _, ?_, fun _ => rfl⟩
    intro f hf
    simp [allocBufLoop] at hf
  | succ n ih =>
    intro s
    rw [allocBufLoop_succ]
    by_cases h1 : (s.desc ((advanceClock s).clockHand)).valid = false
    · rw [if_pos h1]
      refine ⟨rfl, rfl, rfl, rfl, rfl, fun _ => FrameFieldsEq.refl _, ?_, fun h => by cases h⟩
      intro f hf
      have hfe : some ((advanceClock s).clockHand) = some f := hf
      have hfe' : (advanceClock s).clockHand = f := by injection hfe
      subst hfe'
      refine ⟨fun hpos => Nat.mod_lt _ hpos, ?_, ?_⟩
      · intro hv; rw [h1] at hv; cases hv
      · rw [if_neg]
        · rfl
        · intro hc
          rw [h1] at hc
          cases hc.1
    · rw [if_neg h1]
      rw [Bool.not_eq_false] at h1
      by_cases h2 : (s.desc ((advanceClock s).clockHand)).refbit = true
      · rw [if_pos h2]
        have hx := ih (clearRefbit (advanceClock s) (advanceClock s).clockHand)
        obtain ⟨e1, e2, e3, e4, e5, e6, e7, e8⟩ := hx
        refine ⟨e1, e2, e3, e4, by rw [e5]; exact (List.length_set _ _ _), ?_, ?_, e8⟩
        · intro j
          have hcf : FrameFieldsEq (s.desc j)
              ((clearRefbit (advanceClock s) (advanceClock s).clockHand).desc j) :=
            clearRefbit_fields (advanceClock s) (advanceClock s).clockHand j
          exact hcf.trans (e6 j)
        · intro f hf
          obtain ⟨g1, g2, g3⟩ := e7 f hf
          have hff : FrameFieldsEq (s.desc f)
              ((clearRefbit (advanceClock s) (advanceClock s).clockHand).desc f) :=
            clearRefbit_fields (advanceClock s) (advanceClock s).clockHand f
          obtain ⟨f1, f2, f3, f4, f5⟩ := hff
          refine ⟨g1, ?_, ?_⟩
          · intro hv
            rw [← f2]
            exact g2 (by rw [f1]; exact hv)
          · rw [g3, f1, f3, f4]
            rfl
      · rw [if_neg h2]
        rw [Bool.not_eq_true] at h2
        by_cases h3 : (s.desc ((advanceClock s).clockHand)).pinCnt = 0
        · rw [if_pos h3]
          by_cases h4 : (s.desc ((advanceClock s).clockHand)).dirty = true
          · rw [if_pos h4]
            refine ⟨rfl, rfl, rfl, rfl, rfl, fun _ => FrameFieldsEq.refl _, ?_,
              fun h => by cases h⟩
            intro f hf
            have hfe : some ((advanceClock s).clockHand) = some f := hf
            have hfe' : (advanceClock s).clockHand = f := by injection hfe
            subst hfe'
            refine ⟨fun hpos => Nat.mod_lt _ hpos, fun _ => h3, ?_⟩
            rw [if_pos ⟨h1, h4⟩]
            rfl
          · rw [if_neg h4]
            rw [Bool.not_eq_true] at h4
            refine ⟨rfl, rfl, rfl, rfl, rfl, fun _ => FrameFieldsEq.refl _, ?_,
              fun h => by cases h⟩
            intro f hf
            have hfe : some ((advanceClock s).clockHand) = some f := hf
            have hfe' : (advanceClock s).clockHand = f := by injection hfe
            subst hfe'
            refine ⟨fun hpos => Nat.mod_lt _ hpos, fun _ => h3, ?_⟩
            rw [if_neg]
            · rfl
            · intro hc
              rw [h4] at hc
              cases hc.2
        · rw [if_neg h3]
          exact ih (advanceClock s)

theorem allocBuf_fst (s : BufState) :
    (allocBuf s).1 = (allocBufLoop (2 * s.numBufs) s).1 := by
  unfold allocBuf
  cases h : allocBufLoop (2 * s.numBufs) s with
  | mk s' r => cases r <;> rfl

theorem allocBuf_snd_ok (s : BufState) (f : Nat) :
    (allocBuf s).2 = Except.ok f ↔ (allocBufLoop (2 * s.numBufs) s).2 = some f := by
  unfold allocBuf
  cases h : allocBufLoop (2 * s.numBufs) s with
  | mk s' r =>
    cases r with
    | none => simp
    | some g => simp

theorem allocBuf_snd_err (s : BufState)
    (h : (allocBufLoop (2 * s.numBufs) s).2 = none) :
    (allocBuf s).2 = Except.error BufError.bufferExceeded := by
  unfold allocBuf
  cases hh : allocBufLoop (2 * s.numBufs) s with
  | mk s' r =>
    rw [hh] at h
    cases r with
    | none => rfl
    | some g => cases h

/-- In a pool where every frame is occupied and pinned, no iteration count ever
lets the sweep select a frame: each visit either clears a reference bit or
skips a pinned frame, and both preserve "all frames occupied and pinned". -/
theorem allocBufLoop_allPinned (fuel : Nat) : ∀ s : BufState,
    0 < s.numBufs →
    (∀ i, i < s.numBufs → (s.desc i).valid = true ∧ 0 < (s.desc i).pinCnt) →
    (allocBufLoop fuel s).2 = none := by
  induction fuel with
  | zero => intro s _ _; rfl
  | succ n ih =>
    intro s hpos hall
    have hhand : (advanceClock s).clockHand < s.numBufs := Nat.mod_lt _ hpos
    obtain ⟨hv, hp⟩ := hall _ hhand
    rw [allocBufLoop_succ]
    rw [if_neg (by rw [hv]; intro hc; cases hc)]
    by_cases h2 : (s.desc ((advanceClock s).clockHand)).refbit = true
    · rw [if_pos h2]
      refine ih _ hpos ?_
      intro i hi
      have hff : FrameFieldsEq (s.desc i)
          ((clearRefbit (advanceClock s) (advanceClock s).clockHand).desc i) :=
        clearRefbit_fields (advanceClock s) (advanceClock s).clockHand i
      obtain ⟨hv', hp', _, _, _⟩ := hff
      obtain ⟨ha, hb⟩ := hall i hi
      exact ⟨by rw [hv', ha], by rw [hp']; exact hb⟩
    · rw [if_neg h2]
      rw [if_neg (by intro hc; rw [hc] at hp; exact Nat.lt_irrefl 0 hp)]
      exact ih (advanceClock s) hpos hall

/-- Claim C1: in a pool of size `N` where every frame is occupied with
`pinCount > 0`, the replacement sweep `allocBuf` (invoked on a `readPage` miss
or by `allocPage`) fails with `BufferExceeded`.  The sweep is the bounded
`for (i = 0; i < 2 * numBufs; i++)` loop embedded in `allocBuf`, so it
terminates after visiting at most `2 * N` frame slots and never loops or
recurses indefinitely. -/
theorem allocBuf_all_pinned_buffer_exceeded (s : BufState)
    (hall : ∀ i, i < s.numBufs → (s.desc i).valid = true ∧ 0 < (s.desc i).pinCnt) :
    (allocBuf s).2 = Except.error BufError.bufferExceeded := by
  refine allocBuf_snd_err s ?_
  cases hpos : s.numBufs with
  | zero => rfl
  | succ m =>
    exact allocBufLoop_allPinned _ s (by rw [hpos]; exact Nat.succ_pos m) hall

/-- A pool of size 2 with both frames occupied and pinned once. -/
def pinnedPool : BufState :=
  { numBufs := 2
    clockHand := 1
    bufDescTable :=
      [{ file := 1, pageNo := 5, valid := true, pinCnt := 1, refbit := true, dirty := false },
       { file := 1, pageNo := 6, valid := true, pinCnt := 1, refbit := true, dirty := false }]
    bufPool := [(5, 50), (6, 60)]
    hashTable := [((1, 5), 0), ((1, 6), 1)]
    writeLog := []
    deleteLog := [] }

/-- Witness for C1: the fully pinned two-frame pool satisfies the hypothesis,
and `allocBuf` on it fails with `BufferExceeded`. -/
theorem allocBuf_all_pinned_buffer_exceeded_witness :
    (∀ i, i < pinnedPool.numBufs →
      (pinnedPool.desc i).valid = true ∧ 0 < (pinnedPool.desc i).pinCnt) ∧
    (allocBuf pinnedPool).2 = Except.error BufError.bufferExceeded :=
  ⟨by decide, allocBuf_all_pinned_buffer_exceeded pinnedPool (by decide)⟩

/-- A pool of size 1 after: `readPage(file 1, page 10)` (loads data 100),
`unPinPage(file 1, page 10, false)`, `readPage(file 1, page 11)` (loads data
101).  The second read misses and the sweep reuses frame 0, which still holds
page 10. -/
def dupEntryState : BufState :=
  (readPage ((unPinPage ((readPage (mkBufMgr 1) 1 10 100).1) 1 10 false).1) 1 11 101).1

/-- Claim C2: the spec requires that the Page Directory hold exactly one entry
per occupied frame, the victim's entry being removed (and its descriptor
cleared) when the sweep selects an occupied frame.  The code violates this:
`allocBuf` returns an occupied victim without touching the hash table (its own
doc comment says "Make sure that if the buffer frame allocated had a valid
page in it, you remove the appropriate entry from the hash table").  After the
three-call trace of `dupEntryState`, frame 0 is occupied by page 11 yet the
directory still holds the stale entry for page 10: two entries refer to the
one occupied frame. -/
theorem directory_duplicate_entry_bug :
    (dupEntryState.desc 0).valid = true ∧
    (dupEntryState.desc 0).pageNo = 11 ∧
    (dupEntryState.hashTable.filter (fun e => e.2 == 0)).length = 2 ∧
    hashLookup dupEntryState.hashTable 1 10 = some 0 := by decide

/-- Claim C3: when the sweep evicts an occupied victim frame `f` on a
`readPage` miss, a dirty victim causes exactly one write-back — of that
frame's current content, to its owning file — before the frame is reused, and
the dirty bit ends cleared; a clean victim causes zero write-backs. -/
theorem evict_dirty_exactly_one_writeback (s : BufState) (file pageNo loaded f : Nat)
    (hlen : s.bufDescTable.length = s.numBufs)
    (hmiss : hashLookup s.hashTable file pageNo = none)
    (hsel : (allocBuf s).2 = Except.ok f)
    (hvalid : (s.desc f).valid = true) :
    ((readPage s file pageNo loaded).1.desc f).dirty = false ∧
    ((s.desc f).dirty = true →
      (readPage s file pageNo loaded).1.writeLog =
        s.writeLog ++ [((s.desc f).file, s.poolGet f)]) ∧
    ((s.desc f).dirty = false →
      (readPage s file pageNo loaded).1.writeLog = s.writeLog) := by
  have hpos : 0 < s.numBufs := by
    rcases Nat.eq_zero_or_pos s.numBufs with h0 | h
    · exfalso
      have herr : (allocBuf s).2 = Except.error BufError.bufferExceeded := by
        refine allocBuf_snd_err s ?_
        rw [h0]
        rfl
      rw [herr] at hsel
      cases hsel
    · exact h
  have hloopf : (allocBufLoop (2 * s.numBufs) s).2 = some f := (allocBuf_snd_ok s f).mp hsel
  obtain ⟨e1, e2, e3, e4, e5, e6, e7, e8⟩ := allocBufLoop_sweepSpec (2 * s.numBufs) s
  obtain ⟨g1, _, g3⟩ := e7 f hloopf
  have hflt : f < s.bufDescTable.length := by rw [hlen]; exact g1 hpos
  cases hab : allocBuf s with
  | mk s₁ r =>
    have hr : r = Except.ok f := by rw [hab] at hsel; exact hsel
    subst hr
    have hs₁ : s₁ = (allocBufLoop (2 * s.numBufs) s).1 := by
      have := allocBuf_fst s
      rw [hab] at this
      exact this
    have hlen₁ : s₁.bufDescTable.length = s.bufDescTable.length := by rw [hs₁]; exact e5
    have hwl₁ : s₁.writeLog =
        (if (s.desc f).valid = true ∧ (s.desc f).dirty = true then
          s.writeLog ++ [((s.desc f).file, s.poolGet f)] else s.writeLog) := by
      rw [hs₁]; exact g3
    simp only [readPage, hmiss, hab]
    have hdesc :
        (({ { s₁ with hashTable := hashInsert s₁.hashTable file pageNo f }.setDescAt f
            (BufDesc.setDesc file pageNo) with
            bufPool := ({ s₁ with hashTable := hashInsert s₁.hashTable file pageNo f }.setDescAt f
              (BufDesc.setDesc file pageNo)).bufPool.set f (pageNo, loaded) } : BufState).desc f)
          = BufDesc.setDesc file pageNo := by
      have : f < ({ s₁ with hashTable := hashInsert s₁.hashTable file pageNo f } :
          BufState).bufDescTable.length := by
        show f < s₁.bufDescTable.length
        rw [hlen₁]; exact hflt
      exact desc_setDescAt_self _ f _ this
    refine ⟨by rw [hdesc]; rfl, ?_, ?_⟩
    · intro hd
      show s₁.writeLog = s.writeLog ++ [((s.desc f).file, s.poolGet f)]
      rw [hwl₁, if_pos ⟨hvalid, hd⟩]
    · intro hd
      show s₁.writeLog = s.writeLog
      rw [hwl₁, if_neg]
      intro hc
      rw [hd] at hc
      cases hc.2

/-- A pool of size 1 holding an unpinned, unreferenced, dirty page `(1, 7)`. -/
def dirtyVictimPool : BufState :=
  { numBufs := 1
    clockHand := 0
    bufDescTable :=
      [{ file := 1, pageNo := 7, valid := true, pinCnt := 0, refbit := false, dirty := true }]
    bufPool := [(7, 70)]
    hashTable := [((1, 7), 0)]
    writeLog := []
    deleteLog := [] }

/-- Witness for C3: fetching page `(2, 9)` into the one-frame pool evicts the
dirty page `(1, 7)`: exactly one write-back of `(7, 70)` to file 1 is
performed and the reused frame's dirty bit is clear. -/
theorem evict_dirty_exactly_one_writeback_witness :
    (dirtyVictimPool.desc 0).dirty = true ∧
    ((readPage dirtyVictimPool 2 9 99).1.desc 0).dirty = false ∧
    (readPage dirtyVictimPool 2 9 99).1.writeLog = [(1, (7, 70))] :=
  have h := evict_dirty_exactly_one_writeback dirtyVictimPool 2 9 99 0
    (by decide) (by decide) (by rfl) (by decide)
  ⟨by decide, h.1, by rw [h.2.1 (by decide)]; rfl⟩

/-- Claim C4: the sweep never selects a frame with `pinCount > 0`, whatever its
`referenced`/`dirty` bits (under the data-model invariant that unoccupied
frames are unpinned); and a visit to an occupied frame with `referenced = true`
clears that bit and continues the sweep instead of selecting the frame. -/
theorem sweep_never_selects_pinned (s : BufState) (f fuel : Nat) :
    ((∀ i, i < s.numBufs → (s.desc i).valid = false → (s.desc i).pinCnt = 0) →
      0 < (s.desc f).pinCnt → ¬((allocBuf s).2 = Except.ok f)) ∧
    ((s.desc ((advanceClock s).clockHand)).valid = true →
      (s.desc ((advanceClock s).clockHand)).refbit = true →
      allocBufLoop (fuel + 1) s =
        allocBufLoop fuel (clearRefbit (advanceClock s) (advanceClock s).clockHand) ∧
      ((advanceClock s).clockHand < s.bufDescTable.length →
        ((clearRefbit (advanceClock s) (advanceClock s).clockHand).desc
          ((advanceClock s).clockHand)).refbit = false)) := by
  constructor
  · intro hinv hpin hok
    have hpos : 0 < s.numBufs := by
      rcases Nat.eq_zero_or_pos s.numBufs with h0 | h
      · exfalso
        have herr : (allocBuf s).2 = Except.error BufError.bufferExceeded := by
          refine allocBuf_snd_err s ?_
          rw [h0]
          rfl
        rw [herr] at hok
        cases hok
      · exact h
    have hloopf : (allocBufLoop (2 * s.numBufs) s).2 = some f := (allocBuf_snd_ok s f).mp hok
    obtain ⟨_, _, _, _, _, _, e7, _⟩ := allocBufLoop_sweepSpec (2 * s.numBufs) s
    obtain ⟨g1, g2, _⟩ := e7 f hloopf
    cases hv : (s.desc f).valid with
    | true =>
      have := g2 hv
      rw [this] at hpin
      exact Nat.lt_irrefl 0 hpin
    | false =>
      have := hinv f (g1 hpos) hv
      rw [this] at hpin
      exact Nat.lt_irrefl 0 hpin
  · intro hv hr
    constructor
    · rw [allocBufLoop_succ]
      rw [if_neg (by rw [hv]; intro hc; cases hc)]
      rw [if_pos hr]
    · intro hlt
      unfold clearRefbit
      rw [desc_setDescAt_self (advanceClock s) _ _ hlt]

/-- Witness for C4: in the fully pinned two-frame pool, the pinned frame 0 is
never selected, and the visit to the occupied referenced frame 0 clears its
reference bit and continues the sweep. -/
theorem sweep_never_selects_pinned_witness :
    (∀ i, i < pinnedPool.numBufs →
      (pinnedPool.desc i).valid = false → (pinnedPool.desc i).pinCnt = 0) ∧
    ¬((allocBuf pinnedPool).2 = Except.ok 0) ∧
    allocBufLoop 4 pinnedPool =
      allocBufLoop 3 (clearRefbit (advanceClock pinnedPool) (advanceClock pinnedPool).clockHand) ∧
    ((clearRefbit (advanceClock pinnedPool) (advanceClock pinnedPool).clockHand).desc
      (advanceClock pinnedPool).clockHand).refbit = false :=
  have h := sweep_never_selects_pinned pinnedPool 0 3
  ⟨by decide, h.1 (by decide) (by decide),
    (h.2 (by decide) (by decide)).1,
    (h.2 (by decide) (by decide)).2 (by decide)⟩

/-- Claim C5: a successful `readPage` leaves exactly one extra pin for the
caller.  On a hit the resident frame's `refbit` is set, its `pinCnt` is
incremented by one and the resident content is returned; on a miss the loaded
page's frame ends with `pinCnt` exactly 1. -/
theorem fetchPage_pin_effect (s : BufState) (file pageNo loaded f : Nat)
    (hlen : s.bufDescTable.length = s.numBufs) :
    (hashLookup s.hashTable file pageNo = some f → f < s.numBufs →
      ((readPage s file pageNo loaded).1.desc f).refbit = true ∧
      ((readPage s file pageNo loaded).1.desc f).pinCnt = (s.desc f).pinCnt + 1 ∧
      (readPage s file pageNo loaded).2 = Except.ok (s.poolGet f)) ∧
    (hashLookup s.hashTable file pageNo = none →
      (allocBuf s).2 = Except.ok f →
      ((readPage s file pageNo loaded).1.desc f).pinCnt = 1) := by
  constructor
  · intro hhit hf
    have hflt : f < s.bufDescTable.length := by rw [hlen]; exact hf
    simp only [readPage, hhit]
    have hdesc : ((s.setDescAt f
        { s.desc f with refbit := true, pinCnt := (s.desc f).pinCnt + 1 }).desc f)
        = { s.desc f with refbit := true, pinCnt := (s.desc f).pinCnt + 1 } :=
      desc_setDescAt_self s f _ hflt
    exact ⟨by rw [hdesc], by rw [hdesc], rfl⟩
  · intro hmiss hsel
    have hpos : 0 < s.numBufs := by
      rcases Nat.eq_zero_or_pos s.numBufs with h0 | h
      · exfalso
        have herr : (allocBuf s).2 = Except.error BufError.bufferExceeded := by
          refine allocBuf_snd_err s ?_
          rw [h0]
          rfl
        rw [herr] at hsel
        cases hsel
      · exact h
    have hloopf : (allocBufLoop (2 * s.numBufs) s).2 = some f := (allocBuf_snd_ok s f).mp hsel
    obtain ⟨_, _, _, _, e5, _, e7, _⟩ := allocBufLoop_sweepSpec (2 * s.numBufs) s
    obtain ⟨g1, _, _⟩ := e7 f hloopf
    have hflt : f < s.bufDescTable.length := by rw [hlen]; exact g1 hpos
    cases hab : allocBuf s with
    | mk s₁ r =>
      have hr : r = Except.ok f := by rw [hab] at hsel; exact hsel
      subst hr
      have hs₁ : s₁ = (allocBufLoop (2 * s.numBufs) s).1 := by
        have := allocBuf_fst s
        rw [hab] at this
        exact this
      have hlen₁ : s₁.bufDescTable.length = s.bufDescTable.length := by rw [hs₁]; exact e5
      simp only [readPage, hmiss, hab]
      have hdesc :
          (({ { s₁ with hashTable := hashInsert s₁.hashTable file pageNo f }.setDescAt f
              (BufDesc.setDesc file pageNo) with
              bufPool := ({ s₁ with hashTable := hashInsert s₁.hashTable file pageNo f }.setDescAt f
                (BufDesc.setDesc file pageNo)).bufPool.set f (pageNo, loaded) } : BufState).desc f)
            = BufDesc.setDesc file pageNo := by
        have hflt' : f < ({ s₁ with hashTable := hashInsert s₁.hashTable file pageNo f } :
            BufState).bufDescTable.length := by
          show f < s₁.bufDescTable.length
          rw [hlen₁]
          exact hflt
        exact desc_setDescAt_self _ f _ hflt'
      rw [hdesc]
      rfl

/-- A pool of size 2 with one resident pinned page `(1, 7)` in frame 0 and an
unoccupied frame 1. -/
def residentPool : BufState :=
  { numBufs := 2
    clockHand := 0
    bufDescTable :=
      [{ file := 1, pageNo := 7, valid := true, pinCnt := 1, refbit := false, dirty := false },
       BufDesc.clearDesc]
    bufPool := [(7, 70), (0, 0)]
    hashTable := [((1, 7), 0)]
    writeLog := []
    deleteLog := [] }

/-- Witness for C5: a hit on page `(1, 7)` raises frame 0's pin count from 1 to
2, sets its refbit and returns the resident content; a miss on page `(1, 9)`
loads it into frame 1 with pin count exactly 1. -/
theorem fetchPage_pin_effect_witness :
    (((readPage residentPool 1 7 0).1.desc 0).refbit = true ∧
      ((readPage residentPool 1 7 0).1.desc 0).pinCnt = (residentPool.desc 0).pinCnt + 1 ∧
      (readPage residentPool 1 7 0).2 = Except.ok (residentPool.poolGet 0)) ∧
    ((readPage residentPool 1 9 90).1.desc 1).pinCnt = 1 :=
  ⟨(fetchPage_pin_effect residentPool 1 7 0 0 (by decide)).1 (by decide) (by decide),
    (fetchPage_pin_effect residentPool 1 9 90 1 (by decide)).2 (by decide) (by rfl)⟩

/-- Claim C6: for a resident page, `readPage` followed by
`unPinPage(..., false)` returns the frame's pin count to its pre-fetch value
(and the unpin succeeds); and once the pin count is zero, a further unpin of
the still-resident page fails with `PageNotPinned`. -/
theorem pin_unpin_symmetry (s : BufState) (file pageNo loaded f : Nat)
    (hlen : s.bufDescTable.length = s.numBufs)
    (hres : hashLookup s.hashTable file pageNo = some f)
    (hf : f < s.numBufs) :
    ((unPinPage (readPage s file pageNo loaded).1 file pageNo false).2 = Except.ok () ∧
      ((unPinPage (readPage s file pageNo loaded).1 file pageNo false).1.desc f).pinCnt =
        (s.desc f).pinCnt) ∧
    ((s.desc f).pinCnt = 0 →
      (unPinPage s file pageNo false).2 = Except.error BufError.pageNotPinned) := by
  have hflt : f < s.bufDescTable.length := by rw [hlen]; exact hf
  constructor
  · simp only [readPage, hres]
    have hdesc : ((s.setDescAt f
        { s.desc f with refbit := true, pinCnt := (s.desc f).pinCnt + 1 }).desc f)
        = { s.desc f with refbit := true, pinCnt := (s.desc f).pinCnt + 1 } :=
      desc_setDescAt_self s f _ hflt
    have hhash : (s.setDescAt f
        { s.desc f with refbit := true, pinCnt := (s.desc f).pinCnt + 1 }).hashTable
        = s.hashTable := rfl
    simp only [unPinPage, hhash, hres, hdesc]
    rw [if_neg (Nat.succ_ne_zero _)]
    constructor
    · rfl
    · have hflt' : f < (s.setDescAt f
          { s.desc f with refbit := true, pinCnt := (s.desc f).pinCnt + 1 }).bufDescTable.length := by
        show f < (s.bufDescTable.set f _).length
        rw [List.length_set]
        exact hflt
      rw [desc_setDescAt_self _ f _ hflt']
      rw [if_neg (fun hc => Bool.noConfusion hc)]
      exact Nat.add_sub_cancel _ _
  · intro hzero
    simp only [unPinPage, hres]
    rw [if_pos hzero]

/-- Witness for C6: fetch-then-unpin on resident page `(1, 7)` restores frame
0's pin count to 1; and in a state where that page's pin count is 0, one more
unpin fails with `PageNotPinned`. -/
theorem pin_unpin_symmetry_witness :
    ((unPinPage (readPage residentPool 1 7 0).1 1 7 false).2 = Except.ok () ∧
      ((unPinPage (readPage residentPool 1 7 0).1 1 7 false).1.desc 0).pinCnt =
        (residentPool.desc 0).pinCnt) ∧
    ((dirtyVictimPool.desc 0).pinCnt = 0 →
      (unPinPage dirtyVictimPool 1 7 false).2 = Except.error BufError.pageNotPinned) :=
  ⟨(pin_unpin_symmetry residentPool 1 7 0 0 (by decide) (by decide) (by decide)).1,
    (pin_unpin_symmetry dirtyVictimPool 1 7 0 0 (by decide) (by decide) (by decide)).2⟩

/-- Claim C7: `unPinPage(file, pageNo, isDirty)` is a successful no-op when the
page is absent from the directory; fails with `PageNotPinned` when present
with `pinCnt = 0`; and otherwise decrements `pinCnt` by one, sets the dirty
bit when `isDirty` is true, and leaves the dirty bit unchanged (never clears
it) when `isDirty` is false. -/
theorem unPinPage_contract (s : BufState) (file pageNo : Nat) (isDirty : Bool) (f : Nat)
    (hlen : s.bufDescTable.length = s.numBufs) :
    (hashLookup s.hashTable file pageNo = none →
      unPinPage s file pageNo isDirty = (s, Except.ok ())) ∧
    (hashLookup s.hashTable file pageNo = some f → (s.desc f).pinCnt = 0 →
      unPinPage s file pageNo isDirty = (s, Except.error BufError.pageNotPinned)) ∧
    (hashLookup s.hashTable file pageNo = some f → 0 < (s.desc f).pinCnt → f < s.numBufs →
      (unPinPage s file pageNo isDirty).2 = Except.ok () ∧
      ((unPinPage s file pageNo isDirty).1.desc f).pinCnt = (s.desc f).pinCnt - 1 ∧
      (isDirty = true → ((unPinPage s file pageNo isDirty).1.desc f).dirty = true) ∧
      (isDirty = false →
        ((unPinPage s file pageNo isDirty).1.desc f).dirty = (s.desc f).dirty)) := by
  refine ⟨?_, ?_, ?_⟩
  · intro habs
    simp only [unPinPage, habs]
  · intro hres hzero
    simp only [unPinPage, hres]
    rw [if_pos hzero]
  · intro hres hpin hf
    have hflt : f < s.bufDescTable.length := by rw [hlen]; exact hf
    have hne : ¬((s.desc f).pinCnt = 0) := by
      intro hc; rw [hc] at hpin; exact Nat.lt_irrefl 0 hpin
    cases isDirty with
    | false =>
      simp only [unPinPage, hres]
      rw [if_neg hne]
      rw [if_neg (fun hc => Bool.noConfusion hc)]
      have hdesc : ((s.setDescAt f
          { s.desc f with pinCnt := (s.desc f).pinCnt - 1 }).desc f)
          = { s.desc f with pinCnt := (s.desc f).pinCnt - 1 } :=
        desc_setDescAt_self s f _ hflt
      exact ⟨rfl, by rw [hdesc], fun hc => Bool.noConfusion hc, fun _ => by rw [hdesc]⟩
    | true =>
      simp only [unPinPage, hres]
      rw [if_neg hne]
      rw [if_pos trivial]
      have hdesc : ((s.setDescAt f
          { { s.desc f with pinCnt := (s.desc f).pinCnt - 1 } with dirty := true }).desc f)
          = { { s.desc f with pinCnt := (s.desc f).pinCnt - 1 } with dirty := true } :=
        desc_setDescAt_self s f _ hflt
      exact ⟨rfl, by rw [hdesc], fun _ => by rw [hdesc], fun hc => Bool.noConfusion hc⟩

/-- A pool of size 2 holding page `(1, 7)` unpinned in frame 0 and page
`(1, 8)` pinned twice in frame 1. -/
def unpinPool : BufState :=
  { numBufs := 2
    clockHand := 0
    bufDescTable :=
      [{ file := 1, pageNo := 7, valid := true, pinCnt := 0, refbit := false, dirty := false },
       { file := 1, pageNo := 8, valid := true, pinCnt := 2, refbit := false, dirty := false }]
    bufPool := [(7, 70), (8, 80)]
    hashTable := [((1, 7), 0), ((1, 8), 1)]
    writeLog := []
    deleteLog := [] }

/-- Witness for C7: unpinning the absent page `(1, 9)` is a successful no-op;
unpinning the present-but-unpinned page `(1, 7)` fails with `PageNotPinned`;
unpinning the twice-pinned page `(1, 8)` with `isDirty = true` decrements the
pin count and sets the dirty bit. -/
theorem unPinPage_contract_witness :
    unPinPage unpinPool 1 9 true = (unpinPool, Except.ok ()) ∧
    unPinPage unpinPool 1 7 true = (unpinPool, Except.error BufError.pageNotPinned) ∧
    ((unPinPage unpinPool 1 8 true).2 = Except.ok () ∧
      ((unPinPage unpinPool 1 8 true).1.desc 1).pinCnt = (unpinPool.desc 1).pinCnt - 1 ∧
      (true = true → ((unPinPage unpinPool 1 8 true).1.desc 1).dirty = true) ∧
      (true = false →
        ((unPinPage unpinPool 1 8 true).1.desc 1).dirty = (unpinPool.desc 1).dirty)) :=
  ⟨(unPinPage_contract unpinPool 1 9 true 0 (by decide)).1 (by decide),
    (unPinPage_contract unpinPool 1 7 true 0 (by decide)).2.1 (by decide) (by decide),
    (unPinPage_contract unpinPool 1 8 true 1 (by decide)).2.2 (by decide) (by decide) (by decide)⟩

/-! ## Hash-table lemmas -/

theorem hashLookup_eq_none_iff (tbl : List ((Nat × Nat) × Nat)) (file p : Nat) :
    hashLookup tbl file p = none ↔ ∀ e ∈ tbl, ¬(e.1 = (file, p)) := by
  unfold hashLookup
  cases hfind : tbl.find? (fun e => e.1 == (file, p)) with
  | some e =>
    simp only []
    constructor
    · intro hc; cases hc
    · intro hall
      exfalso
      have hmem := List.mem_of_find?_eq_some hfind
      have hpred := List.find?_some hfind
      exact hall e hmem (by rwa [beq_iff_eq] at hpred)
  | none =>
    simp only []
    constructor
    · intro _ e hmem hk
      rw [List.find?_eq_none] at hfind
      exact hfind e hmem (by rwa [beq_iff_eq])
    · intro _; trivial

theorem hashLookup_remove_self (tbl : List ((Nat × Nat) × Nat)) (file p : Nat) :
    hashLookup (hashRemove tbl file p) file p = none := by
  rw [hashLookup_eq_none_iff]
  intro e hmem hk
  have := (List.mem_filter.mp hmem).2
  rw [hk] at this
  simp at this

theorem hashLookup_remove_none (tbl : List ((Nat × Nat) × Nat)) (file p a b : Nat)
    (h : hashLookup tbl file p = none) :
    hashLookup (hashRemove tbl a b) file p = none := by
  rw [hashLookup_eq_none_iff] at h ⊢
  intro e hmem hk
  exact h e (List.mem_filter.mp hmem).1 hk

/-! ## Effect of processing one frame during a flush -/

theorem flushProcessFrame_spec (file i : Nat) (s : BufState)
    (hlt : i < s.bufDescTable.length) :
    (flushProcessFrame file i s).desc i = BufDesc.clearDesc ∧
    (∀ j, j ≠ i → (flushProcessFrame file i s).desc j = s.desc j) ∧
    (flushProcessFrame file i s).hashTable = hashRemove s.hashTable file (s.desc i).pageNo ∧
    (flushProcessFrame file i s).writeLog =
      (if (s.desc i).dirty = true then s.writeLog ++ [((s.desc i).file, s.poolGet i)]
       else s.writeLog) ∧
    (flushProcessFrame file i s).bufPool = s.bufPool ∧
    (flushProcessFrame file i s).deleteLog = s.deleteLog ∧
    (flushProcessFrame file i s).numBufs = s.numBufs ∧
    (flushProcessFrame file i s).bufDescTable.length = s.bufDescTable.length := by
  by_cases hd : (s.desc i).dirty = true
  · simp only [flushProcessFrame, if_pos hd]
    have hlt₁ : i < (writeBackFrame s i).bufDescTable.length := hlt
    have hdesc₁ : ((writeBackFrame s i).setDescAt i { s.desc i with dirty := false }).desc i
        = { s.desc i with dirty := false } := desc_setDescAt_self _ i _ hlt₁
    have hlen₂ : (((writeBackFrame s i).setDescAt i
        { s.desc i with dirty := false }).bufDescTable).length = s.bufDescTable.length := by
      show ((writeBackFrame s i).bufDescTable.set i _).length = _
      rw [List.length_set]
      rfl
    have hlt₂ : i < (({ (writeBackFrame s i).setDescAt i { s.desc i with dirty := false } with
        hashTable := hashRemove ((writeBackFrame s i).setDescAt i
          { s.desc i with dirty := false }).hashTable file
          ((((writeBackFrame s i).setDescAt i
            { s.desc i with dirty := false })).desc i).pageNo } : BufState)).bufDescTable.length := by
      show i < (((writeBackFrame s i).setDescAt i
        { s.desc i with dirty := false }).bufDescTable).length
      rw [hlen₂]
      exact hlt
    refine ⟨desc_setDescAt_self _ i _ hlt₂, ?_, ?_, rfl, rfl, rfl, rfl, ?_⟩
    · intro j hj
      rw [desc_setDescAt_ne _ i j _ hj]
      show (((writeBackFrame s i).setDescAt i { s.desc i with dirty := false })).desc j = s.desc j
      rw [desc_setDescAt_ne _ i j _ hj]
      rfl
    · show hashRemove ((writeBackFrame s i).setDescAt i
        { s.desc i with dirty := false }).hashTable file
          ((((writeBackFrame s i).setDescAt i
            { s.desc i with dirty := false })).desc i).pageNo
        = hashRemove s.hashTable file (s.desc i).pageNo
      rw [hdesc₁]
      rfl
    · show (((writeBackFrame s i).setDescAt i
        { s.desc i with dirty := false }).bufDescTable.set i BufDesc.clearDesc).length = _
      rw [List.length_set]
      exact hlen₂
  · simp only [flushProcessFrame, if_neg hd]
    have hlt₂ : i < (({ s with
        hashTable := hashRemove s.hashTable file ((s.desc i).pageNo) } : BufState)).bufDescTable.length :=
      hlt
    refine ⟨desc_setDescAt_self _ i _ hlt₂, ?_, rfl, rfl, rfl, rfl, rfl, ?_⟩
    · intro j hj
      rw [desc_setDescAt_ne _ i j _ hj]
      rfl
    · show (s.bufDescTable.set i BufDesc.clearDesc).length = _
      rw [List.length_set]

theorem flushFrames_cons (file i : Nat) (rest : List Nat) (s : BufState) :
    flushFrames file (i :: rest) s =
      if (s.desc i).file = file then
        if 0 < (s.desc i).pinCnt then (s, Except.error BufError.pagePinned)
        else if (s.desc i).valid = false then (s, Except.error BufError.badBuffer)
        else flushFrames file rest (flushProcessFrame file i s)
      else flushFrames file rest s := rfl

theorem filterMap_congr {α β : Type} :
    ∀ (l : List α) (f g : α → Option β), (∀ a ∈ l, f a = g a) →
      l.filterMap f = l.filterMap g
  | [], _, _, _ => rfl
  | a :: l, f, g, h => by
    have ha : f a = g a := h a (List.mem_cons_self a l)
    have hl : l.filterMap f = l.filterMap g :=
      filterMap_congr l f g (fun x hx => h x (List.mem_cons_of_mem a hx))
    cases hga : g a with
    | none => rw [List.filterMap_cons_none (by rw [ha, hga]), hl,
        List.filterMap_cons_none hga]
    | some b => rw [List.filterMap_cons_some (by rw [ha, hga]), hl,
        List.filterMap_cons_some hga]

theorem poolGet_eq_of_bufPool_eq {s s' : BufState} (h : s'.bufPool = s.bufPool)
    (j : Nat) : s'.poolGet j = s.poolGet j := by
  unfold BufState.poolGet
  rw [h]

/-- The write-back entry contributed to the `flushFile` write log by frame `i`
of the flushed file: one record if the frame is dirty, none otherwise. -/
def flushWriteEntry (file : Nat) (s : BufState) (i : Nat) : Option (Nat × Page) :=
  if (s.desc i).file = file ∧ (s.desc i).dirty = true then some (file, s.poolGet i)
  else none

/-- Running the `flushFile` scan over `l₁ ++ f :: l₂` where every frame of the
file listed in `l₁` is unpinned and valid, while frame `f` belongs to the file
and is pinned, aborts with `PagePinned` at `f`: the matching frames of `l₁`
have been written back (if dirty), removed from the directory and cleared, and
every other frame — `f` and everything after it included — is untouched. -/
theorem flushFrames_abort_spec (file f : Nat) (l₂ : List Nat) :
    ∀ (l₁ : List Nat) (s : BufState),
    (∀ i ∈ l₁, i < s.bufDescTable.length) →
    f ∉ l₁ →
    l₁.Nodup →
    (∀ i ∈ l₁, (s.desc i).file = file → ((s.desc i).pinCnt = 0 ∧ (s.desc i).valid = true)) →
    (s.desc f).file = file →
    0 < (s.desc f).pinCnt →
    (flushFrames file (l₁ ++ f :: l₂) s).2 = Except.error BufError.pagePinned ∧
    (∀ j, j ∉ l₁ → (flushFrames file (l₁ ++ f :: l₂) s).1.desc j = s.desc j) ∧
    (∀ j ∈ l₁, (s.desc j).file ≠ file →
      (flushFrames file (l₁ ++ f :: l₂) s).1.desc j = s.desc j) ∧
    (∀ j ∈ l₁, (s.desc j).file = file →
      (flushFrames file (l₁ ++ f :: l₂) s).1.desc j = BufDesc.clearDesc ∧
      hashLookup (flushFrames file (l₁ ++ f :: l₂) s).1.hashTable file (s.desc j).pageNo
        = none) ∧
    (flushFrames file (l₁ ++ f :: l₂) s).1.writeLog =
      s.writeLog ++ l₁.filterMap (flushWriteEntry file s) ∧
    (flushFrames file (l₁ ++ f :: l₂) s).1.bufPool = s.bufPool ∧
    (flushFrames file (l₁ ++ f :: l₂) s).1.deleteLog = s.deleteLog ∧
    (flushFrames file (l₁ ++ f :: l₂) s).1.numBufs = s.numBufs ∧
    (flushFrames file (l₁ ++ f :: l₂) s).1.bufDescTable.length = s.bufDescTable.length ∧
    (∀ a b, hashLookup s.hashTable a b = none →
      hashLookup (flushFrames file (l₁ ++ f :: l₂) s).1.hashTable a b = none) := by
  intro l₁
  induction l₁ with
  | nil =>
    intro s _ _ _ _ hmf hpf
    simp only [List.nil_append]
    rw [flushFrames_cons, if_pos hmf, if_pos hpf]
    refine ⟨rfl, fun j _ => rfl, ?_, ?_, ?_, rfl, rfl, rfl, rfl, fun a b h => h⟩
    · intro j hj
      exact absurd hj (List.not_mem_nil j)
    · intro j hj
      exact absurd hj (List.not_mem_nil j)
    · rw [List.filterMap_nil, List.append_nil]
  | cons i t ih =>
    intro s hbound hfnot hnd hclean hmf hpf
    have hmi : i ∈ i :: t := List.mem_cons_self i t
    have hfi : f ≠ i := fun he => hfnot (by rw [he]; exact List.mem_cons_self i t)
    have hft : f ∉ t := fun hm => hfnot (List.mem_cons_of_mem i hm)
    have hint : i ∉ t := (List.nodup_cons.mp hnd).1
    have hndt : t.Nodup := (List.nodup_cons.mp hnd).2
    simp only [List.cons_append]
    rw [flushFrames_cons]
    by_cases hm : (s.desc i).file = file
    · rw [if_pos hm]
      obtain ⟨hp0, hval⟩ := hclean i hmi hm
      rw [if_neg (by rw [hp0]; exact Nat.lt_irrefl 0)]
      rw [if_neg (by rw [hval]; intro hc; cases hc)]
      obtain ⟨fp1, fp2, fp3, fp4, fp5, fp6, fp7, fp8⟩ :=
        flushProcessFrame_spec file i s (hbound i hmi)
      have hdesc_t : ∀ j ∈ t, (flushProcessFrame file i s).desc j = s.desc j :=
        fun j hj => fp2 j (fun he => hint (he ▸ hj))
      have hdesc_f : (flushProcessFrame file i s).desc f = s.desc f := fp2 f hfi
      obtain ⟨c1, c2, c3, c4, c5, c6, c7, c8, c9, c10⟩ :=
        ih (flushProcessFrame file i s)
          (fun j hj => by rw [fp8]; exact hbound j (List.mem_cons_of_mem i hj))
          hft hndt
          (fun j hj hjm => by
            rw [hdesc_t j hj] at hjm ⊢
            exact hclean j (List.mem_cons_of_mem i hj) hjm)
          (by rw [hdesc_f]; exact hmf)
          (by rw [hdesc_f]; exact hpf)
      refine ⟨c1, ?_, ?_, ?_, ?_, by rw [c6, fp5], by rw [c7, fp6], by rw [c8, fp7],
        by rw [c9, fp8], ?_⟩
      · intro j hj
        have hji : j ≠ i := fun he => hj (by rw [he]; exact List.mem_cons_self i t)
        have hjt : j ∉ t := fun hmem => hj (List.mem_cons_of_mem i hmem)
        rw [c2 j hjt, fp2 j hji]
      · intro j hj hjm
        rcases List.mem_cons.mp hj with he | hjt
        · exact absurd (he ▸ hm) hjm
        · rw [c3 j hjt (by rw [hdesc_t j hjt]; exact hjm), hdesc_t j hjt]
      · intro j hj hjm
        rcases List.mem_cons.mp hj with he | hjt
        · subst he
          constructor
          · rw [c2 j hint, fp1]
          · refine c10 file (s.desc j).pageNo ?_
            rw [fp3]
            exact hashLookup_remove_self _ _ _
        · have hjm' : ((flushProcessFrame file i s).desc j).file = file := by
            rw [hdesc_t j hjt]; exact hjm
          obtain ⟨d1, d2⟩ := c4 j hjt hjm'
          refine ⟨d1, ?_⟩
          rw [hdesc_t j hjt] at d2
          exact d2
      · rw [c5, fp4]
        have hcongr : t.filterMap (flushWriteEntry file (flushProcessFrame file i s))
            = t.filterMap (flushWriteEntry file s) := by
          refine filterMap_congr t _ _ ?_
          intro j hj
          unfold flushWriteEntry
          rw [hdesc_t j hj, poolGet_eq_of_bufPool_eq fp5 j]
        rw [hcongr, hm]
        by_cases hd : (s.desc i).dirty = true
        · rw [if_pos hd]
          rw [List.filterMap_cons_some
            (by unfold flushWriteEntry; rw [if_pos ⟨hm, hd⟩])]
          rw [List.append_assoc]
          rfl
        · rw [if_neg hd]
          rw [List.filterMap_cons_none
            (by unfold flushWriteEntry; rw [if_neg (fun hc => hd hc.2)])]
      · intro a b hab
        refine c10 a b ?_
        rw [fp3]
        exact hashLookup_remove_none _ _ _ _ _ hab
    · rw [if_neg hm]
      obtain ⟨c1, c2, c3, c4, c5, c6, c7, c8, c9, c10⟩ :=
        ih s (fun j hj => hbound j (List.mem_cons_of_mem i hj)) hft hndt
          (fun j hj hjm => hclean j (List.mem_cons_of_mem i hj) hjm) hmf hpf
      refine ⟨c1, ?_, ?_, ?_, ?_, c6, c7, c8, c9, c10⟩
      · intro j hj
        exact c2 j (fun hmem => hj (List.mem_cons_of_mem i hmem))
      · intro j hj hjm
        rcases List.mem_cons.mp hj with he | hjt
        · subst he
          exact c2 j hint
        · exact c3 j hjt hjm
      · intro j hj hjm
        rcases List.mem_cons.mp hj with he | hjt
        · exact absurd (he ▸ hjm) hm
        · exact c4 j hjt hjm
      · rw [c5]
        rw [List.filterMap_cons_none
          (by unfold flushWriteEntry; rw [if_neg (fun hc => hm hc.1)])]

theorem range_split (n : Nat) : ∀ f : Nat, f < n →
    ∃ l₂ : List Nat, List.range n = List.range f ++ f :: l₂ := by
  induction n with
  | zero => intro f hf; exact absurd hf (Nat.not_lt_zero f)
  | succ m ih =>
    intro f hf
    rcases Nat.lt_succ_iff_lt_or_eq.mp hf with hlt | heq
    · obtain ⟨l₂, hl₂⟩ := ih f hlt
      refine ⟨l₂ ++ [m], ?_⟩
      rw [List.range_succ, hl₂, List.append_assoc]
      rfl
    · subst heq
      exact ⟨[], by rw [List.range_succ]⟩

/-- Claim C8: `flushFile(file)`, when some frame of the file is pinned, fails
with `PagePinned` at the first such frame `f` in ascending frame-index order
and aborts there: the file's frames below `f` have been written back (if
dirty), removed from the Page Directory and cleared, while frame `f` and every
frame at or above it are left untouched.  (The file's frames below `f` are
assumed valid, per the descriptor-table invariant; otherwise the scan would
have stopped earlier with `BadBuffer`.) -/
theorem flushFile_pinned_aborts_partial (s : BufState) (file f : Nat)
    (hlen : s.bufDescTable.length = s.numBufs)
    (hf : f < s.numBufs)
    (hmf : (s.desc f).file = file)
    (hpf : 0 < (s.desc f).pinCnt)
    (hbelow : ∀ i, i < f → (s.desc i).file = file →
      ((s.desc i).pinCnt = 0 ∧ (s.desc i).valid = true)) :
    (flushFile s file).2 = Except.error BufError.pagePinned ∧
    (∀ j, f ≤ j → (flushFile s file).1.desc j = s.desc j) ∧
    (∀ j, j < f → (s.desc j).file ≠ file → (flushFile s file).1.desc j = s.desc j) ∧
    (∀ j, j < f → (s.desc j).file = file →
      (flushFile s file).1.desc j = BufDesc.clearDesc ∧
      hashLookup (flushFile s file).1.hashTable file (s.desc j).pageNo = none) ∧
    (flushFile s file).1.writeLog =
      s.writeLog ++ (List.range f).filterMap (flushWriteEntry file s) := by
  obtain ⟨l₂, hsplit⟩ := range_split s.numBufs f hf
  have hrw : flushFile s file = flushFrames file (List.range f ++ f :: l₂) s := by
    unfold flushFile
    rw [hsplit]
  obtain ⟨c1, c2, c3, c4, c5, _, _, _, _, _⟩ :=
    flushFrames_abort_spec file f l₂ (List.range f) s
      (fun i hi => by
        rw [hlen]
        exact Nat.lt_trans (List.mem_range.mp hi) hf)
      (fun hmem => Nat.lt_irrefl f (List.mem_range.mp hmem))
      (List.nodup_range f)
      (fun i hi him => hbelow i (List.mem_range.mp hi) him)
      hmf hpf
  rw [hrw]
  refine ⟨c1, ?_, ?_, ?_, c5⟩
  · intro j hj
    exact c2 j (fun hmem => Nat.lt_irrefl j (Nat.lt_of_lt_of_le (List.mem_range.mp hmem) hj))
  · intro j hj hnm
    exact c3 j (List.mem_range.mpr hj) hnm
  · intro j hj hjm
    exact c4 j (List.mem_range.mpr hj) hjm

/-- A pool of size 3 for the flush scenario: frame 0 holds the dirty, unpinned
page `(1, 7)`; frame 1 holds page `(2, 3)` of another file; frame 2 holds the
pinned page `(1, 8)`. -/
def flushPool : BufState :=
  { numBufs := 3
    clockHand := 2
    bufDescTable :=
      [{ file := 1, pageNo := 7, valid := true, pinCnt := 0, refbit := false, dirty := true },
       { file := 2, pageNo := 3, valid := true, pinCnt := 0, refbit := false, dirty := true },
       { file := 1, pageNo := 8, valid := true, pinCnt := 1, refbit := false, dirty := false }]
    bufPool := [(7, 70), (3, 30), (8, 80)]
    hashTable := [((1, 7), 0), ((2, 3), 1), ((1, 8), 2)]
    writeLog := []
    deleteLog := [] }

/-- Witness for C8: flushing file 1 of `flushPool` fails with `PagePinned` at
the pinned frame 2; the dirty frame 0 of the file was written back, removed
from the directory and cleared; frame 1 (another file) and frame 2 are
untouched. -/
theorem flushFile_pinned_aborts_partial_witness :
    (flushFile flushPool 1).2 = Except.error BufError.pagePinned ∧
    (flushFile flushPool 1).1.desc 2 = flushPool.desc 2 ∧
    (flushFile flushPool 1).1.desc 1 = flushPool.desc 1 ∧
    ((flushFile flushPool 1).1.desc 0 = BufDesc.clearDesc ∧
      hashLookup (flushFile flushPool 1).1.hashTable 1 (flushPool.desc 0).pageNo = none) ∧
    (flushFile flushPool 1).1.writeLog =
      flushPool.writeLog ++ (List.range 2).filterMap (flushWriteEntry 1 flushPool) :=
  have h := flushFile_pinned_aborts_partial flushPool 1 2
    (by decide) (by decide) (by decide) (by decide) (by decide)
  ⟨h.1, h.2.1 2 (by decide), h.2.2.1 1 (by decide) (by decide),
    h.2.2.2.1 0 (by decide) (by decide), h.2.2.2.2⟩

/-- Claim C9: `disposePage(file, pageNo)` on a resident page clears its frame
descriptor and removes its directory entry without any write-back (even when
the frame is dirty); on a non-resident page it raises no error and changes
nothing else; in both cases it delegates deletion of the on-disk page to the
file collaborator exactly once. -/
theorem disposePage_contract (s : BufState) (file pageNo f : Nat)
    (hlen : s.bufDescTable.length = s.numBufs) :
    (hashLookup s.hashTable file pageNo = some f → f < s.numBufs →
      (disposePage s file pageNo).2 = Except.ok () ∧
      (disposePage s file pageNo).1.desc f = BufDesc.clearDesc ∧
      hashLookup (disposePage s file pageNo).1.hashTable file pageNo = none ∧
      (disposePage s file pageNo).1.writeLog = s.writeLog ∧
      (disposePage s file pageNo).1.deleteLog = s.deleteLog ++ [(file, pageNo)]) ∧
    (hashLookup s.hashTable file pageNo = none →
      disposePage s file pageNo =
        ({ s with deleteLog := s.deleteLog ++ [(file, pageNo)] }, Except.ok ())) := by
  constructor
  · intro hres hf
    have hflt : f < s.bufDescTable.length := by rw [hlen]; exact hf
    simp only [disposePage, hres]
    refine ⟨trivial, ?_, ?_, rfl, rfl⟩
    · show (s.setDescAt f BufDesc.clearDesc).desc f = BufDesc.clearDesc
      exact desc_setDescAt_self s f _ hflt
    · show hashLookup (hashRemove s.hashTable file pageNo) file pageNo = none
      exact hashLookup_remove_self _ _ _
  · intro habs
    simp only [disposePage, habs]

/-- Witness for C9: disposing the resident page `(1, 7)` of `residentPool`
clears frame 0, removes the entry, performs no write-back and one on-disk
delete; disposing the absent page `(1, 9)` only performs the on-disk delete. -/
theorem disposePage_contract_witness :
    ((disposePage residentPool 1 7).2 = Except.ok () ∧
      (disposePage residentPool 1 7).1.desc 0 = BufDesc.clearDesc ∧
      hashLookup (disposePage residentPool 1 7).1.hashTable 1 7 = none ∧
      (disposePage residentPool 1 7).1.writeLog = residentPool.writeLog ∧
      (disposePage residentPool 1 7).1.deleteLog = residentPool.deleteLog ++ [(1, 7)]) ∧
    disposePage residentPool 1 9 =
      ({ residentPool with deleteLog := residentPool.deleteLog ++ [(1, 9)] }, Except.ok ()) :=
  ⟨(disposePage_contract residentPool 1 7 0 (by decide)).1 (by decide) (by decide),
    (disposePage_contract residentPool 1 9 0 (by decide)).2 (by decide)⟩

/-- Claim C10: unlike `flushFile`, `disposePage` performs no pin-count check:
on a resident page with `pinCount > 0` it raises no error, still clears the
frame descriptor, removes the directory entry and deletes the page on disk
exactly once — silently invalidating the outstanding pins. -/
theorem disposePage_pinned_no_error (s : BufState) (file pageNo f : Nat)
    (hlen : s.bufDescTable.length = s.numBufs)
    (hres : hashLookup s.hashTable file pageNo = some f)
    (hf : f < s.numBufs)
    (_hpin : 0 < (s.desc f).pinCnt) :
    (disposePage s file pageNo).2 = Except.ok () ∧
    (disposePage s file pageNo).1.desc f = BufDesc.clearDesc ∧
    hashLookup (disposePage s file pageNo).1.hashTable file pageNo = none ∧
    (disposePage s file pageNo).1.deleteLog = s.deleteLog ++ [(file, pageNo)] := by
  have hflt : f < s.bufDescTable.length := by rw [hlen]; exact hf
  simp only [disposePage, hres]
  refine ⟨trivial, ?_, ?_, rfl⟩
  · show (s.setDescAt f BufDesc.clearDesc).desc f = BufDesc.clearDesc
    exact desc_setDescAt_self s f _ hflt
  · show hashLookup (hashRemove s.hashTable file pageNo) file pageNo = none
    exact hashLookup_remove_self _ _ _

/-- Witness for C10: disposing page `(1, 8)` of `unpinPool`, pinned twice,
succeeds anyway, clears frame 1, removes the entry and deletes the page on
disk. -/
theorem disposePage_pinned_no_error_witness :
    0 < (unpinPool.desc 1).pinCnt ∧
    ((disposePage unpinPool 1 8).2 = Except.ok () ∧
      (disposePage unpinPool 1 8).1.desc 1 = BufDesc.clearDesc ∧
      hashLookup (disposePage unpinPool 1 8).1.hashTable 1 8 = none ∧
      (disposePage unpinPool 1 8).1.deleteLog = unpinPool.deleteLog ++ [(1, 8)]) :=
  ⟨by decide,
    disposePage_pinned_no_error unpinPool 1 8 1 (by decide) (by decide) (by decide) (by decide)⟩

end BadgerDB
